import Mathlib

/-!
Verification of the MPC energy-dispatch core of the Elettric_system repository.

The embedding covers:
* the mixed-integer program built by `_solve_with_pulp` and by the CVXPY branch of
  `solve_horizon` (src/src/model.py): decision variables, constraint set and objective,
  over exact rationals;
* the solver-backend dispatch logic of `solve_horizon` (availability check on PuLP/CBC,
  exception-driven fallback chain GUROBI -> CBC -> ECOS_BB on the CVXPY side);
* the unconditional result construction after a CVXPY solve (no status inspection);
* the receding-horizon controller loop `run_receding` (src/src/run_mpc_full.py).
-/

namespace ElettricSystem

/-- System configuration, the fields of `cfg['system']` read by model.py.
`eta_dg` is optional because the source reads it with `sys.get('eta_dg', 0.6)`. -/
structure SysCfg where
  import_max_mw : ℚ
  export_max_mw : ℚ
  ely_nom_mw : ℚ
  ely_min_mw : ℚ
  fc_nom_mw : ℚ
  fc_min_mw : ℚ
  dg_nom_mw : ℚ
  dg_min_mw : ℚ
  h2_storage_mwh : ℚ
  eta_ely : ℚ
  eta_fc : ℚ
  eta_dg : Option ℚ

/-- Value of `float(sys.get('eta_dg', 0.6))` (model.py lines 74 and 327); 0.6 = 3/5. -/
def SysCfg.etaDg (s : SysCfg) : ℚ := s.eta_dg.getD (3 / 5)

/-- The per-hour input window handed to the solver: the five columns sliced from the
DataFrame in `solve_horizon` (model.py lines 234-239). -/
structure Window where
  load : ℕ → ℚ
  pv : ℕ → ℚ
  wind : ℕ → ℚ
  import_price : ℕ → ℚ
  export_price : ℕ → ℚ

/-- Decision variables of the mixed-integer program: six non-negative continuous powers,
five binary flags, and the storage state (index 0..H).  Both formulations declare exactly
this variable set (model.py lines 82-100 and 268-285). -/
structure Vars where
  p_import : ℕ → ℚ
  p_export : ℕ → ℚ
  p_ely : ℕ → ℚ
  p_fc : ℕ → ℚ
  p_dg : ℕ → ℚ
  p_curt : ℕ → ℚ
  u_dg : ℕ → Bool
  u_ely : ℕ → Bool
  u_fc : ℕ → Bool
  u_import : ℕ → Bool
  u_export : ℕ → Bool
  soc : ℕ → ℚ

/-- Numeric value of a binary on/off flag. -/
def bq (b : Bool) : ℚ := if b then 1 else 0

/-- Constraint set of the PuLP formulation (`_solve_with_pulp`, model.py lines 82-141):
non-negativity from the `lowBound=0` variable declarations, SOC bounds from the
`lowBound`/`upBound` of the `soc` variables, the initial-SOC equality (line 105), and,
for every hour of the window, import/export mutual exclusion, the flag-linked power
bounds, the energy balance (lines 130-133) and the storage dynamics (lines 139-141). -/
def pulpConstraints (H : ℕ) (w : Window) (sys : SysCfg) (soc_init_mwh dt : ℚ)
    (x : Vars) : Prop :=
  (∀ t < H, 0 ≤ x.p_import t ∧ 0 ≤ x.p_export t ∧ 0 ≤ x.p_ely t ∧
    0 ≤ x.p_fc t ∧ 0 ≤ x.p_dg t ∧ 0 ≤ x.p_curt t) ∧
  (∀ t ≤ H, 0 ≤ x.soc t ∧ x.soc t ≤ sys.h2_storage_mwh) ∧
  x.soc 0 = soc_init_mwh ∧
  (∀ t < H,
    bq (x.u_import t) + bq (x.u_export t) ≤ 1 ∧
    x.p_import t ≤ sys.import_max_mw * bq (x.u_import t) ∧
    x.p_export t ≤ sys.export_max_mw * bq (x.u_export t) ∧
    x.p_ely t ≤ sys.ely_nom_mw * bq (x.u_ely t) ∧
    x.p_ely t ≥ sys.ely_min_mw * bq (x.u_ely t) ∧
    x.p_fc t ≤ sys.fc_nom_mw * bq (x.u_fc t) ∧
    x.p_fc t ≥ sys.fc_min_mw * bq (x.u_fc t) ∧
    x.p_dg t ≤ sys.dg_nom_mw * bq (x.u_dg t) ∧
    x.p_dg t ≥ sys.dg_min_mw * bq (x.u_dg t) ∧
    w.pv t + w.wind t + x.p_import t + x.p_dg t + x.p_fc t
      = w.load t + x.p_ely t + x.p_export t + x.p_curt t ∧
    x.soc (t + 1) = x.soc t + dt * (sys.eta_ely * x.p_ely t - 1 / sys.eta_fc * x.p_fc t))

/-- Constraint set of the CVXPY formulation (`solve_horizon`, model.py lines 268-322):
non-negativity from the `nonneg=True` variable declarations, then the constraint list
built on lines 289-322, one conjunct per `constraints +=` statement, in source order. -/
def cvxpyConstraints (H : ℕ) (w : Window) (sys : SysCfg) (soc_init_mwh dt : ℚ)
    (x : Vars) : Prop :=
  (∀ t < H, 0 ≤ x.p_import t) ∧
  (∀ t < H, 0 ≤ x.p_export t) ∧
  (∀ t < H, 0 ≤ x.p_ely t) ∧
  (∀ t < H, 0 ≤ x.p_fc t) ∧
  (∀ t < H, 0 ≤ x.p_dg t) ∧
  (∀ t < H, 0 ≤ x.p_curt t) ∧
  x.soc 0 = soc_init_mwh ∧
  (∀ t < H, bq (x.u_import t) + bq (x.u_export t) ≤ 1) ∧
  (∀ t < H, x.p_import t ≤ sys.import_max_mw * bq (x.u_import t)) ∧
  (∀ t < H, x.p_export t ≤ sys.export_max_mw * bq (x.u_export t)) ∧
  (∀ t < H, x.p_ely t ≤ sys.ely_nom_mw * bq (x.u_ely t)) ∧
  (∀ t < H, x.p_ely t ≥ sys.ely_min_mw * bq (x.u_ely t)) ∧
  (∀ t < H, x.p_fc t ≤ sys.fc_nom_mw * bq (x.u_fc t)) ∧
  (∀ t < H, x.p_fc t ≥ sys.fc_min_mw * bq (x.u_fc t)) ∧
  (∀ t < H, x.p_dg t ≤ sys.dg_nom_mw * bq (x.u_dg t)) ∧
  (∀ t < H, x.p_dg t ≥ sys.dg_min_mw * bq (x.u_dg t)) ∧
  (∀ t ≤ H, 0 ≤ x.soc t) ∧
  (∀ t ≤ H, x.soc t ≤ sys.h2_storage_mwh) ∧
  (∀ t < H, w.pv t + w.wind t + x.p_import t + x.p_dg t + x.p_fc t
      = w.load t + x.p_ely t + x.p_export t + x.p_curt t) ∧
  (∀ t < H, x.soc (t + 1) = x.soc t
      + dt * (sys.eta_ely * x.p_ely t - 1 / sys.eta_fc * x.p_fc t))

/-- The fixed curtailment penalty, `curtail_penalty = 1.0` in both formulations
(model.py lines 145 and 326). -/
def curtail_penalty : ℚ := 1

/-- Objective of the PuLP formulation (model.py lines 148-157): import cost minus export
revenue plus diesel fuel cost plus curtailment penalty, each summed over the window. -/
def pulpObjective (H : ℕ) (w : Window) (sys : SysCfg) (fuel_price dt : ℚ)
    (x : Vars) : ℚ :=
  (∑ t ∈ Finset.range H, w.import_price t * x.p_import t * dt)
  - (∑ t ∈ Finset.range H, w.export_price t * x.p_export t * dt)
  + (∑ t ∈ Finset.range H, fuel_price / sys.etaDg * x.p_dg t * dt)
  + (∑ t ∈ Finset.range H, curtail_penalty * x.p_curt t * dt)

/-- Objective of the CVXPY formulation (model.py lines 330-333); the last term is
`curtail_penalty * cp.sum(p_curt * dt)`, a scalar multiple of the whole sum. -/
def cvxpyObjective (H : ℕ) (w : Window) (sys : SysCfg) (fuel_price dt : ℚ)
    (x : Vars) : ℚ :=
  (∑ t ∈ Finset.range H, w.import_price t * x.p_import t * dt)
  - (∑ t ∈ Finset.range H, w.export_price t * x.p_export t * dt)
  + (∑ t ∈ Finset.range H, fuel_price / sys.etaDg * x.p_dg t * dt)
  + curtail_penalty * (∑ t ∈ Finset.range H, x.p_curt t * dt)

/-- The objective exactly as the specification words it: a single sum over the window of
`import_price·P_import·dt − export_price·P_export·dt + (fuel_price/η_dg)·P_dg·dt +
curtail_penalty·P_curt·dt` with the penalty the literal constant 1. -/
def objectiveSpec (H : ℕ) (w : Window) (sys : SysCfg) (fuel_price dt : ℚ)
    (x : Vars) : ℚ :=
  ∑ t ∈ Finset.range H,
    (w.import_price t * x.p_import t * dt - w.export_price t * x.p_export t * dt
      + fuel_price / sys.etaDg * x.p_dg t * dt + 1 * x.p_curt t * dt)

/-- The two formulations declare the same constraint set: each conjunct of one appears
verbatim in the other. -/
theorem pulp_iff_cvxpy (H : ℕ) (w : Window) (sys : SysCfg) (s0 dt : ℚ) (x : Vars) :
    pulpConstraints H w sys s0 dt x ↔ cvxpyConstraints H w sys s0 dt x := by
  constructor
  · rintro ⟨hn, hs, h0, hT⟩
    refine ⟨fun t ht => (hn t ht).1, fun t ht => (hn t ht).2.1, fun t ht => (hn t ht).2.2.1,
      fun t ht => (hn t ht).2.2.2.1, fun t ht => (hn t ht).2.2.2.2.1,
      fun t ht => (hn t ht).2.2.2.2.2, h0,
      fun t ht => (hT t ht).1, fun t ht => (hT t ht).2.1, fun t ht => (hT t ht).2.2.1,
      fun t ht => (hT t ht).2.2.2.1, fun t ht => (hT t ht).2.2.2.2.1,
      fun t ht => (hT t ht).2.2.2.2.2.1, fun t ht => (hT t ht).2.2.2.2.2.2.1,
      fun t ht => (hT t ht).2.2.2.2.2.2.2.1, fun t ht => (hT t ht).2.2.2.2.2.2.2.2.1,
      fun t ht => (hs t ht).1, fun t ht => (hs t ht).2,
      fun t ht => (hT t ht).2.2.2.2.2.2.2.2.2.1,
      fun t ht => (hT t ht).2.2.2.2.2.2.2.2.2.2⟩
  · rintro ⟨c1, c2, c3, c4, c5, c6, c7, c8, c9, c10, c11, c12, c13, c14, c15, c16,
      c17, c18, c19, c20⟩
    exact ⟨fun t ht => ⟨c1 t ht, c2 t ht, c3 t ht, c4 t ht, c5 t ht, c6 t ht⟩,
      fun t ht => ⟨c17 t ht, c18 t ht⟩, c7,
      fun t ht => ⟨c8 t ht, c9 t ht, c10 t ht, c11 t ht, c12 t ht, c13 t ht, c14 t ht,
        c15 t ht, c16 t ht, c19 t ht, c20 t ht⟩⟩

/-- The two formulations compute the same objective value on every assignment. -/
theorem pulp_obj_eq_cvxpy_obj (H : ℕ) (w : Window) (sys : SysCfg) (fuel_price dt : ℚ)
    (x : Vars) : pulpObjective H w sys fuel_price dt x = cvxpyObjective H w sys fuel_price dt x := by
  simp only [pulpObjective, cvxpyObjective, Finset.mul_sum, mul_assoc]

/-- The all-zero scenario: zero forecasts and prices over the window. -/
def zeroWindow : Window := ⟨fun _ => 0, fun _ => 0, fun _ => 0, fun _ => 0, fun _ => 0⟩

/-- A degenerate configuration: every capacity and minimum power zero, unit efficiencies
for the storage path, `eta_dg` absent (so the 0.6 default applies). -/
def zeroSys : SysCfg := ⟨0, 0, 0, 0, 0, 0, 0, 0, 0, 1, 1, none⟩

/-- The all-zero assignment: all powers and SOC zero, all flags off. -/
def zeroVars : Vars := ⟨fun _ => 0, fun _ => 0, fun _ => 0, fun _ => 0, fun _ => 0,
  fun _ => 0, fun _ => false, fun _ => false, fun _ => false, fun _ => false,
  fun _ => false, fun _ => 0⟩

theorem zeroInst_pulp_feasible : pulpConstraints 1 zeroWindow zeroSys 0 1 zeroVars := by
  refine ⟨?_, ?_, rfl, ?_⟩ <;> intro t ht <;>
    norm_num [zeroWindow, zeroSys, zeroVars, bq]

/-- Claim C1: in both formulations the energy-balance equation
`PV + Wind + Import + Diesel + FuelCell = Load + Electrolyzer + Export + Curtailment`
is among the constraints, so every assignment satisfying the constraint set satisfies
it at every hour of the window. -/
theorem energy_balance_both_formulations (H : ℕ) (w : Window) (sys : SysCfg)
    (s0 dt : ℚ) (x : Vars)
    (hfeas : pulpConstraints H w sys s0 dt x ∨ cvxpyConstraints H w sys s0 dt x) :
    ∀ t < H, w.pv t + w.wind t + x.p_import t + x.p_dg t + x.p_fc t
      = w.load t + x.p_ely t + x.p_export t + x.p_curt t := by
  intro t ht
  rcases hfeas with h | h
  · exact (h.2.2.2 t ht).2.2.2.2.2.2.2.2.2.1
  · obtain ⟨-, -, -, -, -, -, -, -, -, -, -, -, -, -, -, -, -, -, hbal, -⟩ := h
    exact hbal t ht

theorem energy_balance_witness :
    zeroWindow.pv 0 + zeroWindow.wind 0 + zeroVars.p_import 0 + zeroVars.p_dg 0
        + zeroVars.p_fc 0
      = zeroWindow.load 0 + zeroVars.p_ely 0 + zeroVars.p_export 0 + zeroVars.p_curt 0 :=
  energy_balance_both_formulations 1 zeroWindow zeroSys 0 1 zeroVars
    (Or.inl zeroInst_pulp_feasible) 0 Nat.one_pos

/-- Forward recomputation of the storage state from `SOC[0]` via the state equation of
the specification, `SOC[t+1] = SOC[t] + dt·(η_ely·P_ely[t] − P_fc[t]/η_fc)`. -/
def socRecompute (soc_init dt eta_ely eta_fc : ℚ) (pEly pFc : ℕ → ℚ) : ℕ → ℚ
  | 0 => soc_init
  | t + 1 => socRecompute soc_init dt eta_ely eta_fc pEly pFc t
      + dt * (eta_ely * pEly t - pFc t / eta_fc)

/-- Claim C2: in both formulations the storage state satisfies
`SOC[t+1] = SOC[t] + dt·(η_ely·P_ely[t] − P_fc[t]/η_fc)` at every hour, `SOC[0]` is fixed
to the supplied initial value, and recomputing SOC forward from `SOC[0]` via the state
equation reproduces the SOC sequence. -/
theorem storage_dynamics_roundtrip (H : ℕ) (w : Window) (sys : SysCfg)
    (s0 dt : ℚ) (x : Vars)
    (hfeas : pulpConstraints H w sys s0 dt x ∨ cvxpyConstraints H w sys s0 dt x) :
    x.soc 0 = s0
    ∧ (∀ t < H, x.soc (t + 1)
        = x.soc t + dt * (sys.eta_ely * x.p_ely t - x.p_fc t / sys.eta_fc))
    ∧ ∀ t ≤ H, x.soc t = socRecompute s0 dt sys.eta_ely sys.eta_fc x.p_ely x.p_fc t := by
  have hdiv : ∀ p : ℚ, 1 / sys.eta_fc * p = p / sys.eta_fc := by
    intro p; rw [div_mul_eq_mul_div, one_mul]
  obtain ⟨h0, hdyn⟩ : x.soc 0 = s0 ∧ ∀ t < H, x.soc (t + 1)
      = x.soc t + dt * (sys.eta_ely * x.p_ely t - 1 / sys.eta_fc * x.p_fc t) := by
    rcases hfeas with h | h
    · exact ⟨h.2.2.1, fun t ht => (h.2.2.2 t ht).2.2.2.2.2.2.2.2.2.2⟩
    · obtain ⟨-, -, -, -, -, -, hz, -, -, -, -, -, -, -, -, -, -, -, -, hd⟩ := h
      exact ⟨hz, hd⟩
  have hdyn2 : ∀ t < H, x.soc (t + 1)
      = x.soc t + dt * (sys.eta_ely * x.p_ely t - x.p_fc t / sys.eta_fc) := by
    intro t ht; rw [hdyn t ht, hdiv]
  refine ⟨h0, hdyn2, ?_⟩
  intro t
  induction t with
  | zero => intro _; simpa [socRecompute] using h0
  | succ n ih =>
    intro hn
    have hnH : n < H := Nat.lt_of_lt_of_le (Nat.lt_succ_self n) hn
    rw [socRecompute, ← ih (Nat.le_of_lt hnH), hdyn2 n hnH]

theorem storage_dynamics_witness :
    zeroVars.soc 0 = 0
    ∧ zeroVars.soc 1 = zeroVars.soc 0
        + 1 * (zeroSys.eta_ely * zeroVars.p_ely 0 - zeroVars.p_fc 0 / zeroSys.eta_fc)
    ∧ zeroVars.soc 1 = socRecompute 0 1 zeroSys.eta_ely zeroSys.eta_fc
        zeroVars.p_ely zeroVars.p_fc 1 := by
  obtain ⟨h0, hdyn, hrt⟩ := storage_dynamics_roundtrip 1 zeroWindow zeroSys 0 1 zeroVars
    (Or.inl zeroInst_pulp_feasible)
  exact ⟨h0, hdyn 0 Nat.one_pos, hrt 1 (Nat.le_refl 1)⟩

/-- Claim C3: in both formulations the objective equals the specification formula
`Σ (import_price·P_import·dt − export_price·P_export·dt + (fuel_price/η_dg)·P_dg·dt
+ curtail_penalty·P_curt·dt)` with the curtailment penalty the fixed constant 1. -/
theorem objective_matches_spec_formula (H : ℕ) (w : Window) (sys : SysCfg)
    (fuel_price dt : ℚ) (x : Vars) :
    pulpObjective H w sys fuel_price dt x = objectiveSpec H w sys fuel_price dt x
    ∧ cvxpyObjective H w sys fuel_price dt x = objectiveSpec H w sys fuel_price dt x
    ∧ curtail_penalty = 1 := by
  have hp : pulpObjective H w sys fuel_price dt x = objectiveSpec H w sys fuel_price dt x := by
    simp only [pulpObjective, objectiveSpec, curtail_penalty,
      Finset.sum_add_distrib, Finset.sum_sub_distrib]
  exact ⟨hp, by rw [← pulp_obj_eq_cvxpy_obj, hp], rfl⟩

/-- Claim C10: both formulations unconditionally enforce import/export mutual exclusion
through `u_import + u_export ≤ 1` and the flag-linked capacity bounds, so no feasible
assignment has both import and export strictly positive in the same hour. -/
theorem import_export_mutual_exclusion (H : ℕ) (w : Window) (sys : SysCfg)
    (s0 dt : ℚ) (x : Vars)
    (hfeas : pulpConstraints H w sys s0 dt x ∨ cvxpyConstraints H w sys s0 dt x) :
    ∀ t < H, ¬ (0 < x.p_import t ∧ 0 < x.p_export t) := by
  intro t ht
  rintro ⟨hi, he⟩
  obtain ⟨hmutex, himp, hexp⟩ : bq (x.u_import t) + bq (x.u_export t) ≤ 1
      ∧ x.p_import t ≤ sys.import_max_mw * bq (x.u_import t)
      ∧ x.p_export t ≤ sys.export_max_mw * bq (x.u_export t) := by
    rcases hfeas with h | h
    · exact ⟨(h.2.2.2 t ht).1, (h.2.2.2 t ht).2.1, (h.2.2.2 t ht).2.2.1⟩
    · obtain ⟨-, -, -, -, -, -, -, hm, hic, hec, -, -, -, -, -, -, -, -, -, -⟩ := h
      exact ⟨hm t ht, hic t ht, hec t ht⟩
  cases hui : x.u_import t with
  | false =>
    have hle : x.p_import t ≤ 0 := by simpa [bq, hui] using himp
    linarith
  | true =>
    cases hue : x.u_export t with
    | false =>
      have hle : x.p_export t ≤ 0 := by simpa [bq, hue] using hexp
      linarith
    | true =>
      rw [hui, hue] at hmutex
      norm_num [bq] at hmutex

theorem mutual_exclusion_witness :
    ¬ (0 < zeroVars.p_import 0 ∧ 0 < zeroVars.p_export 0) :=
  import_export_mutual_exclusion 1 zeroWindow zeroSys 0 1 zeroVars
    (Or.inl zeroInst_pulp_feasible) 0 Nat.one_pos

/-- An optimal point of a program: feasible and of minimal objective value. -/
def IsOptimal (C : Vars → Prop) (f : Vars → ℚ) (x : Vars) : Prop :=
  C x ∧ ∀ z, C z → f x ≤ f z

/-- Two assignments agree on every dispatch quantity reported in the schedule: the six
continuous powers on the window and the SOC trajectory (binary flags may differ). -/
def DispatchEq (H : ℕ) (x y : Vars) : Prop :=
  (∀ t < H, x.p_import t = y.p_import t ∧ x.p_export t = y.p_export t
    ∧ x.p_ely t = y.p_ely t ∧ x.p_fc t = y.p_fc t ∧ x.p_dg t = y.p_dg t
    ∧ x.p_curt t = y.p_curt t)
  ∧ ∀ t ≤ H, x.soc t = y.soc t

/-- Claim C8: the PuLP and CVXPY formulations encode the same mixed-integer program
(identical constraint set and objective), so optimal points of the two paths carry the
same objective value, and when the optimum is unique the same dispatch quantities. -/
theorem pulp_cvxpy_same_program (H : ℕ) (w : Window) (sys : SysCfg)
    (s0 fuel_price dt : ℚ) (x y : Vars)
    (hx : IsOptimal (pulpConstraints H w sys s0 dt)
      (pulpObjective H w sys fuel_price dt) x)
    (hy : IsOptimal (cvxpyConstraints H w sys s0 dt)
      (cvxpyObjective H w sys fuel_price dt) y)
    (huniq : ∀ z1 z2,
      IsOptimal (cvxpyConstraints H w sys s0 dt) (cvxpyObjective H w sys fuel_price dt) z1 →
      IsOptimal (cvxpyConstraints H w sys s0 dt) (cvxpyObjective H w sys fuel_price dt) z2 →
      DispatchEq H z1 z2) :
    (∀ z, pulpConstraints H w sys s0 dt z ↔ cvxpyConstraints H w sys s0 dt z)
    ∧ (∀ z, pulpObjective H w sys fuel_price dt z = cvxpyObjective H w sys fuel_price dt z)
    ∧ pulpObjective H w sys fuel_price dt x = cvxpyObjective H w sys fuel_price dt y
    ∧ DispatchEq H x y := by
  have hfe := fun z => pulp_iff_cvxpy H w sys s0 dt z
  have hoe := fun z => pulp_obj_eq_cvxpy_obj H w sys fuel_price dt z
  have hxc : IsOptimal (cvxpyConstraints H w sys s0 dt)
      (cvxpyObjective H w sys fuel_price dt) x := by
    refine ⟨(hfe x).mp hx.1, fun z hz => ?_⟩
    rw [← hoe x, ← hoe z]
    exact hx.2 z ((hfe z).mpr hz)
  have hobj : cvxpyObjective H w sys fuel_price dt x
      = cvxpyObjective H w sys fuel_price dt y :=
    le_antisymm (hxc.2 y hy.1) (hy.2 x hxc.1)
  exact ⟨hfe, hoe, by rw [hoe x, hobj], huniq x y hxc hy⟩

theorem zeroInst_pulp_min : ∀ z, pulpConstraints 1 zeroWindow zeroSys 0 1 z →
    pulpObjective 1 zeroWindow zeroSys 0 1 zeroVars
      ≤ pulpObjective 1 zeroWindow zeroSys 0 1 z := by
  intro z hz
  have h0 : pulpObjective 1 zeroWindow zeroSys 0 1 zeroVars = 0 := by
    simp [pulpObjective, zeroWindow, zeroVars, curtail_penalty]
  have hzv : pulpObjective 1 zeroWindow zeroSys 0 1 z = z.p_curt 0 := by
    simp [pulpObjective, zeroWindow, curtail_penalty, Finset.sum_range_one]
  rw [h0, hzv]
  exact (hz.1 0 Nat.one_pos).2.2.2.2.2

theorem zeroInst_pulp_optimal : IsOptimal (pulpConstraints 1 zeroWindow zeroSys 0 1)
    (pulpObjective 1 zeroWindow zeroSys 0 1) zeroVars :=
  ⟨zeroInst_pulp_feasible, zeroInst_pulp_min⟩

theorem zeroInst_cvxpy_optimal : IsOptimal (cvxpyConstraints 1 zeroWindow zeroSys 0 1)
    (cvxpyObjective 1 zeroWindow zeroSys 0 1) zeroVars := by
  refine ⟨(pulp_iff_cvxpy 1 zeroWindow zeroSys 0 1 zeroVars).mp zeroInst_pulp_feasible,
    fun z hz => ?_⟩
  rw [← pulp_obj_eq_cvxpy_obj, ← pulp_obj_eq_cvxpy_obj]
  exact zeroInst_pulp_min z ((pulp_iff_cvxpy 1 zeroWindow zeroSys 0 1 z).mpr hz)

theorem zeroInst_dispatch_zero (z : Vars)
    (hz : cvxpyConstraints 1 zeroWindow zeroSys 0 1 z) :
    (∀ t < 1, z.p_import t = 0 ∧ z.p_export t = 0 ∧ z.p_ely t = 0 ∧ z.p_fc t = 0
      ∧ z.p_dg t = 0 ∧ z.p_curt t = 0) ∧ ∀ t ≤ 1, z.soc t = 0 := by
  obtain ⟨n1, n2, n3, n4, n5, n6, h0, hm, hic, hec, helmax, helmin, hfcmax, hfcmin,
    hdgmax, hdgmin, hsl, hsu, hbal, hdyn⟩ := hz
  have hcap : ∀ t < 1, z.p_import t = 0 ∧ z.p_export t = 0 ∧ z.p_ely t = 0
      ∧ z.p_fc t = 0 ∧ z.p_dg t = 0 := by
    intro t ht
    have h1 := hic t ht
    have h2 := hec t ht
    have h3 := helmax t ht
    have h4 := hfcmax t ht
    have h5 := hdgmax t ht
    simp only [zeroSys, zero_mul] at h1 h2 h3 h4 h5
    exact ⟨le_antisymm h1 (n1 t ht), le_antisymm h2 (n2 t ht), le_antisymm h3 (n3 t ht),
      le_antisymm h4 (n4 t ht), le_antisymm h5 (n5 t ht)⟩
  refine ⟨fun t ht => ?_, fun t ht => ?_⟩
  · obtain ⟨e1, e2, e3, e4, e5⟩ := hcap t ht
    have hb := hbal t ht
    simp only [zeroWindow] at hb
    refine ⟨e1, e2, e3, e4, e5, ?_⟩
    rw [e1, e2, e3, e4, e5] at hb
    linarith
  · have hl := hsl t ht
    have hu := hsu t ht
    simp only [zeroSys] at hu
    exact le_antisymm hu hl

theorem zeroInst_unique_dispatch : ∀ z1 z2,
    IsOptimal (cvxpyConstraints 1 zeroWindow zeroSys 0 1)
      (cvxpyObjective 1 zeroWindow zeroSys 0 1) z1 →
    IsOptimal (cvxpyConstraints 1 zeroWindow zeroSys 0 1)
      (cvxpyObjective 1 zeroWindow zeroSys 0 1) z2 →
    DispatchEq 1 z1 z2 := by
  intro z1 z2 h1 h2
  obtain ⟨d1, s1⟩ := zeroInst_dispatch_zero z1 h1.1
  obtain ⟨d2, s2⟩ := zeroInst_dispatch_zero z2 h2.1
  refine ⟨fun t ht => ?_, fun t ht => (s1 t ht).trans (s2 t ht).symm⟩
  obtain ⟨a1, a2, a3, a4, a5, a6⟩ := d1 t ht
  obtain ⟨b1, b2, b3, b4, b5, b6⟩ := d2 t ht
  exact ⟨a1.trans b1.symm, a2.trans b2.symm, a3.trans b3.symm, a4.trans b4.symm,
    a5.trans b5.symm, a6.trans b6.symm⟩

theorem same_program_witness :
    (pulpConstraints 1 zeroWindow zeroSys 0 1 zeroVars
      ↔ cvxpyConstraints 1 zeroWindow zeroSys 0 1 zeroVars)
    ∧ pulpObjective 1 zeroWindow zeroSys 0 1 zeroVars
      = cvxpyObjective 1 zeroWindow zeroSys 0 1 zeroVars
    ∧ DispatchEq 1 zeroVars zeroVars := by
  obtain ⟨h1, h2, h3, h4⟩ := pulp_cvxpy_same_program 1 zeroWindow zeroSys 0 0 1
    zeroVars zeroVars zeroInst_pulp_optimal zeroInst_cvxpy_optimal zeroInst_unique_dispatch
  exact ⟨h1 zeroVars, h2 zeroVars, h4⟩

/-- Error token for an exception escaping a backend attempt. -/
inductive BackendErr where
  | gurobiFailure
  | cbcFailure
  | ecosFailure
  | pulpSolveFailure
deriving DecidableEq

/-- Outcome of one backend attempt: a normal return or a raised exception. -/
inductive Outcome (α : Type) where
  | ok (r : α)
  | raises (e : BackendErr)
deriving DecidableEq

/-- The backend environment `solve_horizon` runs against: whether the PuLP/CBC
availability check of model.py line 68 passes, the outcome of the PuLP attempt
(solver selection plus `prob.solve`, lines 163-188), and the outcomes of the three
CVXPY solver attempts (lines 340-346). -/
structure BackendEnv (α : Type) where
  pulpAvailable : Bool
  pulpSolve : Outcome α
  gurobi : Outcome α
  cbc : Outcome α
  ecos_bb : Outcome α

/-- Backend dispatch of `solve_horizon` (model.py lines 246-346): if PuLP and CBC are
available the PuLP attempt runs with no exception handler around it, so a raised
exception propagates out of `solve_horizon` at once; only when the availability check
fails does the CVXPY chain run, trying GUROBI, then CBC, then ECOS_BB, each failure
falling through to the next and the last one propagating. -/
def solveHorizonBackends {α : Type} (b : BackendEnv α) : Except BackendErr α :=
  if b.pulpAvailable then
    match b.pulpSolve with
    | .ok r => .ok r
    | .raises e => .error e
  else
    match b.gurobi with
    | .ok r => .ok r
    | .raises _ =>
      match b.cbc with
      | .ok r => .ok r
      | .raises _ =>
        match b.ecos_bb with
        | .ok r => .ok r
        | .raises e => .error e

/-- Whether a backend attempt raised. -/
def Outcome.failed {α : Type} : Outcome α → Bool
  | .ok _ => false
  | .raises _ => true

/-- Every backend in the preference list failed (counting an unavailable PuLP/CBC pair
as a failed PuLP attempt). -/
def allBackendsFailed {α : Type} (b : BackendEnv α) : Bool :=
  (!b.pulpAvailable || b.pulpSolve.failed)
    && b.gurobi.failed && b.cbc.failed && b.ecos_bb.failed

/-- A backend environment in which the PuLP attempt raises while every CVXPY backend
would succeed. -/
def pulpRaisesEnv : BackendEnv ℚ :=
  { pulpAvailable := true, pulpSolve := .raises .pulpSolveFailure,
    gurobi := .ok 0, cbc := .ok 0, ecos_bb := .ok 0 }

/-- Claim C5 counterexample: a fatal error escapes `solve_horizon` although only the
PuLP attempt failed and the CVXPY backends, which would have succeeded, were never
tried, refuting that a fatal error is raised only when every backend has failed. -/
theorem backend_fallback_counterexample :
    solveHorizonBackends pulpRaisesEnv = Except.error BackendErr.pulpSolveFailure
    ∧ allBackendsFailed pulpRaisesEnv = false
    ∧ pulpRaisesEnv.gurobi = Outcome.ok 0 := ⟨rfl, rfl, rfl⟩

/-- Claim C5 (amended): `solve_horizon` raises a fatal error exactly when either the
PuLP path is taken and its solve raises (without falling back to CVXPY), or PuLP/CBC is
unavailable and all three CVXPY backends fail, the last with the surfaced error. -/
theorem backend_fallback_characterization {α : Type} (b : BackendEnv α) (e : BackendErr) :
    solveHorizonBackends b = Except.error e ↔
      (b.pulpAvailable = true ∧ b.pulpSolve = Outcome.raises e)
      ∨ (b.pulpAvailable = false ∧ b.gurobi.failed = true ∧ b.cbc.failed = true
          ∧ b.ecos_bb = Outcome.raises e) := by
  obtain ⟨pa, ps, g, c, ec⟩ := b
  cases pa <;> cases ps <;> cases g <;> cases c <;> cases ec <;>
    simp [solveHorizonBackends, Outcome.failed]

/-- Final status reported by a CVXPY solve. -/
inductive CvxpyStatus where
  | optimal
  | infeasible
  | unbounded
deriving DecidableEq

/-- Variable values as read back from CVXPY through `.value` on each variable. -/
structure CvxpySolution where
  p_import : ℕ → ℚ
  p_export : ℕ → ℚ
  p_ely : ℕ → ℚ
  p_fc : ℕ → ℚ
  p_dg : ℕ → ℚ
  p_curt : ℕ → ℚ
  soc : ℕ → ℚ

/-- Raw outcome of `problem.solve(...)` in the CVXPY path: final status, the variable
values (`none` models CVXPY leaving every `.value` at `None`, as after an infeasible
solve), and the objective value (`none` models a non-finite `problem.value`). -/
structure CvxpyRaw where
  status : CvxpyStatus
  sol : Option CvxpySolution
  objValue : Option ℚ

/-- Schedule columns of the returned MPCResult, one per column built on
model.py lines 350-360. -/
structure ScheduleCols where
  p_import_mw : ℕ → ℚ
  p_export_mw : ℕ → ℚ
  p_ely_mw : ℕ → ℚ
  p_fc_mw : ℕ → ℚ
  p_dg_mw : ℕ → ℚ
  p_curt_mw : ℕ → ℚ
  soc_mwh : ℕ → ℚ

/-- The MPCResult assembled by the CVXPY path of `solve_horizon`; the objective is
`float(problem.value)`, with `none` modelling a non-finite value. -/
structure MPCResultM where
  schedule : ScheduleCols
  objective_value : Option ℚ

/-- Error escaping the result construction of the CVXPY path. `typeError` is the
generic Python TypeError raised when `soc.value[1:]` subscripts a `None` value;
`infeasibleError` stands for the explicit, distinct infeasibility error the
specification requires, which no path of the code produces. -/
inductive CvxpyPostErr where
  | typeError
  | infeasibleError
deriving DecidableEq

/-- The schedule columns read off the variable values (model.py lines 350-360);
`soc_mwh` takes `soc.value[1:]`. -/
def scheduleColsOf (s : CvxpySolution) : ScheduleCols :=
  { p_import_mw := s.p_import
    p_export_mw := s.p_export
    p_ely_mw := s.p_ely
    p_fc_mw := s.p_fc
    p_dg_mw := s.p_dg
    p_curt_mw := s.p_curt
    soc_mwh := fun t => s.soc (t + 1) }

/-- Result construction of the CVXPY path (model.py lines 348-363): runs unconditionally
after `problem.solve`, never inspecting the solver status. When the solver left the
variable values unset (as after an infeasible or unbounded solve), evaluating
`soc.value[1:]` on line 359 subscripts `None` and raises a TypeError before any result
is built; otherwise the schedule and the MPCResult are assembled from the values. -/
def cvxpyBuildResult (raw : CvxpyRaw) : Except CvxpyPostErr MPCResultM :=
  match raw.sol with
  | none => .error .typeError
  | some s => .ok { schedule := scheduleColsOf s, objective_value := raw.objValue }

/-- Claim C6 counterexample: on an infeasible solve (status infeasible, variable values
left unset) the failure escaping `solve_horizon` is the incidental TypeError raised by
subscripting the unset values, not a distinct infeasibility error: the explicit,
distinct error the claim asserts is never reported. -/
theorem infeasible_no_distinct_error :
    cvxpyBuildResult { status := .infeasible, sol := none, objValue := none }
      = Except.error CvxpyPostErr.typeError
    ∧ cvxpyBuildResult { status := .infeasible, sol := none, objValue := none }
      ≠ Except.error CvxpyPostErr.infeasibleError :=
  ⟨rfl, by simp [cvxpyBuildResult]⟩

/-- Claim C6 (amended): `solve_horizon` never raises a distinct infeasibility error and
never inspects the solver status: the result construction behaves identically for every
status; when the variable values are unset (infeasible or unbounded solve) it crashes
with the incidental TypeError from `soc.value[1:]`, and otherwise it returns the
MPCResult assembled from the values. -/
theorem cvxpy_post_solve_no_distinct_error (raw : CvxpyRaw) :
    cvxpyBuildResult raw ≠ Except.error CvxpyPostErr.infeasibleError
    ∧ (∀ st, cvxpyBuildResult { raw with status := st } = cvxpyBuildResult raw)
    ∧ cvxpyBuildResult { raw with sol := none } = Except.error CvxpyPostErr.typeError
    ∧ ∀ s, cvxpyBuildResult { raw with sol := some s }
        = Except.ok { schedule := scheduleColsOf s, objective_value := raw.objValue } := by
  obtain ⟨st0, sol0, obj0⟩ := raw
  refine ⟨?_, fun st => rfl, rfl, fun s => rfl⟩
  cases sol0 <;> simp [cvxpyBuildResult]

/-- One row of a HorizonResult schedule, the columns built by model.py lines 175-186. -/
structure HRow where
  p_import_mw : ℚ
  p_export_mw : ℚ
  p_ely_mw : ℚ
  p_fc_mw : ℚ
  p_dg_mw : ℚ
  p_curt_mw : ℚ
  soc_mwh : ℚ
deriving DecidableEq, Inhabited

/-- The value returned by one horizon solve: per-hour schedule plus objective value. -/
structure HorizonResultM where
  schedule : List HRow
  objective_value : ℚ
deriving DecidableEq, Inhabited

/-- One row of the committed schedule (run_mpc_full.py lines 81-93). -/
structure CommitRow where
  hour : ℕ
  p_import_mw : ℚ
  p_export_mw : ℚ
  p_ely_mw : ℚ
  p_fc_mw : ℚ
  p_dg_mw : ℚ
  p_curt_mw : ℚ
  soc_mwh : ℚ
  objective_eur : ℚ
deriving DecidableEq, Inhabited

/-- The committed row built in one controller step (run_mpc_full.py lines 75-93): the
first row of the horizon result (`iloc[0]`) plus the horizon's objective value; the SOC
recorded is the updated controller SOC, which is read from that first row. -/
def commitStep (hour : ℕ) (res : HorizonResultM) : CommitRow :=
  let first := res.schedule.headI
  let soc := first.soc_mwh
  { hour := hour
    p_import_mw := first.p_import_mw
    p_export_mw := first.p_export_mw
    p_ely_mw := first.p_ely_mw
    p_fc_mw := first.p_fc_mw
    p_dg_mw := first.p_dg_mw
    p_curt_mw := first.p_curt_mw
    soc_mwh := soc
    objective_eur := res.objective_value }

theorem commitStep_soc (hour : ℕ) (res : HorizonResultM) :
    (commitStep hour res).soc_mwh = res.schedule.headI.soc_mwh := rfl

/-- Number of controller steps, the length of `range(start, int(last_hour) - horizon + 1)`
(run_mpc_full.py line 70), computed in ℤ because the Python bound may be negative. -/
def recedingSteps (start lastHour horizon : ℕ) : ℕ :=
  (((lastHour : ℤ) - horizon + 1) - start).toNat

/-- The controller loop of `run_receding`, by recursion on the remaining step count;
the carried state is the current hour and the SOC fed into the next solve. -/
def runRecedingGo (solveH : ℕ → ℚ → HorizonResultM) : ℕ → ℚ → ℕ → List CommitRow
  | _, _, 0 => []
  | hour, soc, n + 1 =>
    let res := solveH hour soc
    let row := commitStep hour res
    row :: runRecedingGo solveH (hour + 1) row.soc_mwh n

/-- `run_receding` (run_mpc_full.py lines 30-96): SOC starts at the constant 0.0
(line 65) and the loop slides the horizon one hour per step. -/
def run_receding (solveH : ℕ → ℚ → HorizonResultM) (start lastHour horizon : ℕ) :
    List CommitRow :=
  runRecedingGo solveH start 0 (recedingSteps start lastHour horizon)

/-- The SOC the loop state holds after k steps when started at the given hour and SOC. -/
def recedingSocFrom (solveH : ℕ → ℚ → HorizonResultM) (hour : ℕ) (soc : ℚ) : ℕ → ℚ
  | 0 => soc
  | k + 1 =>
    ((solveH (hour + k) (recedingSocFrom solveH hour soc k)).schedule.headI).soc_mwh

/-- The SOC `run_receding` feeds into the solve of step k (step 0 gets the initial 0). -/
def recedingSoc (solveH : ℕ → ℚ → HorizonResultM) (start k : ℕ) : ℚ :=
  recedingSocFrom solveH start 0 k

theorem recedingSocFrom_shift (solveH : ℕ → ℚ → HorizonResultM) (hour : ℕ) (soc : ℚ)
    (k : ℕ) :
    recedingSocFrom solveH hour soc (k + 1)
      = recedingSocFrom solveH (hour + 1)
          ((solveH hour soc).schedule.headI).soc_mwh k := by
  induction k with
  | zero => simp [recedingSocFrom]
  | succ n ih =>
    have harith : hour + (n + 1) = (hour + 1) + n := by omega
    calc recedingSocFrom solveH hour soc (n + 1 + 1)
        = ((solveH (hour + (n + 1))
            (recedingSocFrom solveH hour soc (n + 1))).schedule.headI).soc_mwh := rfl
      _ = ((solveH ((hour + 1) + n)
            (recedingSocFrom solveH (hour + 1)
              ((solveH hour soc).schedule.headI).soc_mwh n)).schedule.headI).soc_mwh := by
          rw [ih, harith]
      _ = recedingSocFrom solveH (hour + 1)
            ((solveH hour soc).schedule.headI).soc_mwh (n + 1) := rfl

theorem runRecedingGo_get (solveH : ℕ → ℚ → HorizonResultM) (k : ℕ) :
    ∀ (hour : ℕ) (soc : ℚ) (n : ℕ), k < n →
      (runRecedingGo solveH hour soc n).get? k
        = some (commitStep (hour + k)
            (solveH (hour + k) (recedingSocFrom solveH hour soc k))) := by
  induction k with
  | zero =>
    intro hour soc n hk
    cases n with
    | zero => omega
    | succ n => simp [runRecedingGo, recedingSocFrom]
  | succ m ih =>
    intro hour soc n hk
    cases n with
    | zero => omega
    | succ n =>
      have hm : m < n := Nat.lt_of_succ_lt_succ hk
      rw [runRecedingGo]
      rw [List.get?_cons_succ]
      rw [ih (hour + 1) ((commitStep hour (solveH hour soc)).soc_mwh) n hm,
        commitStep_soc, ← recedingSocFrom_shift]
      have harith : (hour + 1) + m = hour + (m + 1) := by omega
      rw [harith]

/-- Claim C4: for consecutive controller steps, the SOC fed into step k+1's solve equals
the `soc_mwh` recorded for hour k of the committed schedule, and the row committed at
step k is exactly the first row of that step's HorizonResult together with that
horizon's objective value. -/
theorem receding_commit_boundary (solveH : ℕ → ℚ → HorizonResultM)
    (start lastHour horizon k : ℕ)
    (_hne : ∀ h s, (solveH h s).schedule ≠ [])
    (hk : k < recedingSteps start lastHour horizon) :
    (run_receding solveH start lastHour horizon).get? k
      = some (commitStep (start + k) (solveH (start + k) (recedingSoc solveH start k)))
    ∧ (commitStep (start + k) (solveH (start + k) (recedingSoc solveH start k))).soc_mwh
      = recedingSoc solveH start (k + 1) := by
  refine ⟨runRecedingGo_get solveH k start 0 _ hk, ?_⟩
  rw [commitStep_soc]
  rfl

/-- A horizon solver for evaluation: one-row schedule whose SOC advances by one each step. -/
def demoSolve : ℕ → ℚ → HorizonResultM := fun _ soc =>
  { schedule := [⟨1, 0, 0, 0, 0, 0, soc + 1⟩], objective_value := 3 }

theorem receding_commit_witness :
    (run_receding demoSolve 0 2 1).get? 0
      = some (commitStep 0 (demoSolve 0 (recedingSoc demoSolve 0 0)))
    ∧ (commitStep 0 (demoSolve 0 (recedingSoc demoSolve 0 0))).soc_mwh
      = recedingSoc demoSolve 0 1 :=
  receding_commit_boundary demoSolve 0 2 1 0 (fun h s => by simp [demoSolve])
    (by norm_num [recedingSteps])

/-- The receding-horizon controller as the specification describes it: the initial SOC
is a configurable value supplied as input to the run. -/
def run_receding_spec_init (soc_init : ℚ) (solveH : ℕ → ℚ → HorizonResultM)
    (start lastHour horizon : ℕ) : List CommitRow :=
  runRecedingGo solveH start soc_init (recedingSteps start lastHour horizon)

/-- A horizon solver that echoes the SOC it is given into the returned first row. -/
def echoSolve : ℕ → ℚ → HorizonResultM := fun _ soc =>
  { schedule := [⟨0, 0, 0, 0, 0, 0, soc⟩], objective_value := 0 }

/-- Claim C9 counterexample: `run_receding` has no initial-SOC input and always starts
from SOC 0, so with a configured initial SOC of 5 the code disagrees with the
spec-described controller: the first solve is fed 0, not the configured value. -/
theorem soc_init_not_configurable :
    (run_receding echoSolve 0 1 1).headI.soc_mwh = 0
    ∧ (run_receding_spec_init 5 echoSolve 0 1 1).headI.soc_mwh = 5
    ∧ run_receding echoSolve 0 1 1 ≠ run_receding_spec_init 5 echoSolve 0 1 1 := by
  refine ⟨rfl, rfl, ?_⟩
  intro h
  have h0 : (run_receding echoSolve 0 1 1).headI.soc_mwh = 0 := rfl
  have h5 : (run_receding_spec_init 5 echoSolve 0 1 1).headI.soc_mwh = 5 := rfl
  rw [h, h5] at h0
  norm_num at h0

/-- Claim C9 (amended): `run_receding` always initializes its SOC state to the constant
0.0 before the first solve; it coincides with the spec-side controller run at initial
SOC 0, and the SOC fed to step 0 is 0. -/
theorem run_receding_initializes_soc_zero (solveH : ℕ → ℚ → HorizonResultM)
    (start lastHour horizon : ℕ) :
    run_receding solveH start lastHour horizon
      = run_receding_spec_init 0 solveH start lastHour horizon
    ∧ recedingSoc solveH start 0 = 0 :=
  ⟨rfl, rfl⟩

/-- The controller loop with a fallible horizon solver: `run_receding` installs no
exception handler (run_mpc_full.py lines 64-96), so a raised error propagates and the
locally accumulated `results` list is lost; rows are only returned when every step of
the loop completes. -/
def runRecedingGoExc {ε : Type} (solveH : ℕ → ℚ → Except ε HorizonResultM) :
    ℕ → ℚ → ℕ → Except ε (List CommitRow)
  | _, _, 0 => .ok []
  | hour, soc, n + 1 =>
    match solveH hour soc with
    | .error e => .error e
    | .ok res =>
      let row := commitStep hour res
      match runRecedingGoExc solveH (hour + 1) row.soc_mwh n with
      | .error e => .error e
      | .ok rest => .ok (row :: rest)

/-- `run_receding` against a fallible horizon solver. -/
def run_receding_exc {ε : Type} (solveH : ℕ → ℚ → Except ε HorizonResultM)
    (start lastHour horizon : ℕ) : Except ε (List CommitRow) :=
  runRecedingGoExc solveH start 0 (recedingSteps start lastHour horizon)

/-- The SOC the fallible loop holds after k successful steps (0 after any failure). -/
def recedingSocExcFrom {ε : Type} (solveH : ℕ → ℚ → Except ε HorizonResultM)
    (hour : ℕ) (soc : ℚ) : ℕ → ℚ
  | 0 => soc
  | k + 1 =>
    match solveH (hour + k) (recedingSocExcFrom solveH hour soc k) with
    | .ok res => res.schedule.headI.soc_mwh
    | .error _ => 0

theorem runRecedingGoExc_succ_ok {ε : Type} (solveH : ℕ → ℚ → Except ε HorizonResultM)
    (hour : ℕ) (soc : ℚ) (n : ℕ) (r : HorizonResultM)
    (h : solveH hour soc = Except.ok r) :
    runRecedingGoExc solveH hour soc (n + 1)
      = match runRecedingGoExc solveH (hour + 1) (commitStep hour r).soc_mwh n with
        | Except.error e => Except.error e
        | Except.ok rest => Except.ok (commitStep hour r :: rest) := by
  rw [runRecedingGoExc, h]

theorem runRecedingGoExc_succ_err {ε : Type} (solveH : ℕ → ℚ → Except ε HorizonResultM)
    (hour : ℕ) (soc : ℚ) (n : ℕ) (e : ε)
    (h : solveH hour soc = Except.error e) :
    runRecedingGoExc solveH hour soc (n + 1) = Except.error e := by
  rw [runRecedingGoExc, h]

theorem recedingSocExcFrom_shift {ε : Type} (solveH : ℕ → ℚ → Except ε HorizonResultM)
    (hour : ℕ) (soc : ℚ) (r0 : HorizonResultM)
    (h0 : solveH hour soc = Except.ok r0) (k : ℕ) :
    recedingSocExcFrom solveH hour soc (k + 1)
      = recedingSocExcFrom solveH (hour + 1) (r0.schedule.headI.soc_mwh) k := by
  induction k with
  | zero => simp [recedingSocExcFrom, h0]
  | succ n ih =>
    have harith : hour + (n + 1) = (hour + 1) + n := by omega
    calc recedingSocExcFrom solveH hour soc (n + 1 + 1)
        = (match solveH (hour + (n + 1)) (recedingSocExcFrom solveH hour soc (n + 1)) with
          | Except.ok res => res.schedule.headI.soc_mwh
          | Except.error _ => 0) := rfl
      _ = (match solveH ((hour + 1) + n)
            (recedingSocExcFrom solveH (hour + 1) (r0.schedule.headI.soc_mwh) n) with
          | Except.ok res => res.schedule.headI.soc_mwh
          | Except.error _ => 0) := by rw [ih, harith]
      _ = recedingSocExcFrom solveH (hour + 1) (r0.schedule.headI.soc_mwh) (n + 1) := rfl

theorem runRecedingGoExc_error {ε : Type} (solveH : ℕ → ℚ → Except ε HorizonResultM)
    (e : ε) (k : ℕ) :
    ∀ (hour : ℕ) (soc : ℚ) (n : ℕ), k < n →
    (∀ j < k, ∃ r, solveH (hour + j)
      (recedingSocExcFrom solveH hour soc j) = Except.ok r) →
    solveH (hour + k) (recedingSocExcFrom solveH hour soc k) = Except.error e →
    runRecedingGoExc solveH hour soc n = Except.error e := by
  induction k with
  | zero =>
    intro hour soc n hk _hok herr
    cases n with
    | zero => omega
    | succ n =>
      have herr2 : solveH hour soc = Except.error e := herr
      exact runRecedingGoExc_succ_err solveH hour soc n e herr2
  | succ m ih =>
    intro hour soc n hk hok herr
    cases n with
    | zero => omega
    | succ n =>
      obtain ⟨r0, hr0⟩ := hok 0 (Nat.succ_pos m)
      have hr0x : solveH hour soc = Except.ok r0 := hr0
      have hok2 : ∀ j < m, ∃ r, solveH ((hour + 1) + j)
          (recedingSocExcFrom solveH (hour + 1) (r0.schedule.headI.soc_mwh) j)
          = Except.ok r := by
        intro j hj
        obtain ⟨r, hr⟩ := hok (j + 1) (Nat.succ_lt_succ hj)
        refine ⟨r, ?_⟩
        rw [← recedingSocExcFrom_shift solveH hour soc r0 hr0x j]
        have harith : (hour + 1) + j = hour + (j + 1) := by omega
        rw [harith]
        exact hr
      have herr2 : solveH ((hour + 1) + m)
          (recedingSocExcFrom solveH (hour + 1) (r0.schedule.headI.soc_mwh) m)
          = Except.error e := by
        rw [← recedingSocExcFrom_shift solveH hour soc r0 hr0x m]
        have harith : (hour + 1) + m = hour + (m + 1) := by omega
        rw [harith]
        exact herr
      have hrec := ih (hour + 1) (r0.schedule.headI.soc_mwh) n
        (Nat.lt_of_succ_lt_succ hk) hok2 herr2
      rw [runRecedingGoExc_succ_ok solveH hour soc n r0 hr0x, commitStep_soc, hrec]

/-- Claim C7 (amended): if a step's horizon solve raises, the controller stops and
surfaces that error immediately, but the already-committed prefix is discarded: the
value returned to the caller is only the error, carrying no committed rows. -/
theorem receding_error_surfaced_prefix_lost {ε : Type}
    (solveH : ℕ → ℚ → Except ε HorizonResultM) (start lastHour horizon k : ℕ) (e : ε)
    (hk : k < recedingSteps start lastHour horizon)
    (hok : ∀ j < k, ∃ r, solveH (start + j)
      (recedingSocExcFrom solveH start 0 j) = Except.ok r)
    (herr : solveH (start + k) (recedingSocExcFrom solveH start 0 k) = Except.error e) :
    run_receding_exc solveH start lastHour horizon = Except.error e :=
  runRecedingGoExc_error solveH e k start 0 _ hk hok herr

/-- Error raised by a failing horizon solve. -/
inductive SolveFail where
  | infeasible
deriving DecidableEq

/-- A horizon solver that succeeds at hour 0 and raises at every later hour. -/
def failAfterFirst : ℕ → ℚ → Except SolveFail HorizonResultM := fun hour _ =>
  if hour = 0 then Except.ok { schedule := [⟨0, 0, 0, 0, 0, 0, 0⟩], objective_value := 0 }
  else Except.error SolveFail.infeasible

/-- Claim C7 counterexample: with a solver that commits hour 0 successfully and fails at
hour 1, `run_receding` returns only the error; the committed row for hour 0 is not
available to the caller, refuting that the partial schedule is kept. -/
theorem receding_failure_counterexample :
    run_receding_exc failAfterFirst 0 2 1 = Except.error SolveFail.infeasible
    ∧ failAfterFirst 0 0
      = Except.ok { schedule := [⟨0, 0, 0, 0, 0, 0, 0⟩], objective_value := 0 } :=
  ⟨rfl, rfl⟩

theorem receding_failure_witness :
    run_receding_exc failAfterFirst 0 3 1 = Except.error SolveFail.infeasible :=
  receding_error_surfaced_prefix_lost failAfterFirst 0 3 1 1 SolveFail.infeasible
    (by norm_num [recedingSteps])
    (by
      intro j hj
      interval_cases j
      exact ⟨_, rfl⟩)
    rfl

end ElettricSystem
